import Mathlib

/-
  Verification development for `src/crates/egui_cosmic_glue/src/atlas.rs`
  (the texture atlas of the vertexlauncher repository).

  The Rust code is shallowly embedded as pure Lean functions:
  * `TextureAtlas` mirrors the `TextureAtlas` struct; the GPU texture is
    modelled by its pixel contents (`texture : Nat → Nat → Color32`) plus
    the tracked `atlas_side`; the `egui::Context` only supplies the
    externally reported `max_texture_side`, which is passed explicitly.
  * the `etagere::BucketedAtlasAllocator` is an external collaborator and
    is modelled abstractly by a state type `P` together with a record of
    operations `PackerOps P` (allocate / deallocate / grow), exactly the
    three calls the source makes.
  * the `lru::LruCache` is modelled as an association list ordered
    least-recently-used first; `get` promotes the accessed entry to
    most-recently-used (the documented behaviour of the lru crate),
    `peek_lru` does not reorder.
  * the rasterizer (`SwashCache::get_image_uncached`) is an external
    deterministic function `Key → Option SwashImage`; every operation that
    may invoke it also returns the number of rasterizer invocations, so
    that "rasterizes exactly once" style properties can be stated.
  * the `assert!` in `TextureAtlas::grow` is modelled by returning `none`
    (panic); `alloc`'s unbounded retry loop takes explicit fuel, the
    `Outcome.noFuel` case marking exhaustion of that fuel only.
-/

namespace EguiCosmicGlue

/-- Opaque glyph identity (`cosmic_text::CacheKey`).  The atlas only hashes
and compares keys, so a `Nat` stands in for it. -/
abbrev Key := Nat

/-- Model of `egui::Color32`: an RGBA pixel, each channel a byte. -/
structure Color32 where
  r : Nat
  g : Nat
  b : Nat
  a : Nat
deriving DecidableEq, Repr

/-- Model of `Color32::TRANSPARENT`. -/
def Color32.transparent : Color32 := ⟨0, 0, 0, 0⟩

/-- Model of `Color32::WHITE`. -/
def Color32.white : Color32 := ⟨255, 255, 255, 255⟩

/-- Model of `Color32::from_rgba_unmultiplied` (premultiplies the colour channels by
alpha; egui's exact rounding of the multiplication is abstracted to floor
division, which no stated property depends on). -/
def Color32.from_rgba_unmultiplied (r g b a : Nat) : Color32 :=
  if a = 255 then ⟨r, g, b, 255⟩
  else if a = 0 then Color32.transparent
  else ⟨r * a / 255, g * a / 255, b * a / 255, a⟩

/-- Model of `Color32::from_rgba_premultiplied`. -/
def Color32.from_rgba_premultiplied (r g b a : Nat) : Color32 := ⟨r, g, b, a⟩

/-- Model of `cosmic_text::SwashContent`: the pixel format of a rasterized glyph. -/
inductive SwashContent where
  | mask
  | color
  | subpixelMask
deriving DecidableEq, Repr

/-- Model of `swash` placement data: bearings and pixel dimensions. -/
structure Placement where
  left : Int
  top : Int
  width : Nat
  height : Nat
deriving DecidableEq, Repr

/-- Model of `cosmic_text::SwashImage`: a rasterized glyph bitmap. -/
structure SwashImage where
  placement : Placement
  content : SwashContent
  data : List Nat
deriving DecidableEq, Repr

/-- A point of an `etagere` rectangle (only `min` is ever read). -/
structure Point where
  x : Nat
  y : Nat
deriving DecidableEq, Repr

/-- An `etagere::Rectangle`; the source only reads `rect.min`. -/
structure Rectangle where
  min : Point
deriving DecidableEq, Repr

/-- An `etagere::Allocation`: opaque id plus the allocated rectangle. -/
structure Allocation where
  id : Nat
  rectangle : Rectangle
deriving DecidableEq, Repr

/-- Internal state for a cached glyph (struct `GlyphState`). -/
structure GlyphState where
  allocation : Allocation
  placement : Placement
  colorable : Bool
deriving DecidableEq, Repr

/-- The `lru::LruCache<CacheKey, Option<GlyphState>>`, modelled as an
association list ordered least-recently-used first (head = LRU,
last = most-recently-used). -/
abbrev Cache := List (Key × Option GlyphState)

/-- Look an entry up without touching the recency order (pure projection). -/
def cacheGetEntry (c : Cache) (k : Key) : Option (Option GlyphState) :=
  (c.find? (fun e => e.1 == k)).map (·.2)

/-- Model of `LruCache::get`: returns the entry and, on a hit, moves the key to the
most-recently-used position (the lru crate promotes on `get`). -/
def cacheGet (c : Cache) (k : Key) : Option (Option GlyphState) × Cache :=
  match cacheGetEntry c k with
  | none => (none, c)
  | some v => (some v, c.eraseP (fun e => e.1 == k) ++ [(k, v)])

/-- Model of `LruCache::put`: insert or replace, marking most-recently-used. -/
def cachePut (c : Cache) (k : Key) (v : Option GlyphState) : Cache :=
  c.eraseP (fun e => e.1 == k) ++ [(k, v)]

/-- Model of `LruCache::promote`: mark an existing entry most-recently-used. -/
def cachePromote (c : Cache) (k : Key) : Cache :=
  match cacheGetEntry c k with
  | none => c
  | some v => c.eraseP (fun e => e.1 == k) ++ [(k, v)]

/-- Model of `LruCache::peek_lru`: view the least-recently-used pair, no reorder. -/
def cachePeekLru (c : Cache) : Option (Key × Option GlyphState) := c.head?

/-- Model of `HashSet::insert` on the in-use set (order is irrelevant; only
membership is ever queried). -/
def insertKey (l : List Key) (k : Key) : List Key :=
  if k ∈ l then l else k :: l

/-- The rectangular region `[x0, x0+w) × [y0, y0+h)` targeted by a glyph
write into the atlas surface. -/
def inRect (x0 y0 w h x y : Nat) : Prop :=
  x0 ≤ x ∧ x < x0 + w ∧ y0 ≤ y ∧ y < y0 + h

instance (x0 y0 w h x y : Nat) : Decidable (inRect x0 y0 w h x y) := by
  unfold inRect; infer_instance

/-- The pixel value `write_glyph_image` stores at offset `(px, py)` inside
the destination subregion, per `SwashContent` case of the source. -/
def glyph_pixel (image : SwashImage) (default_color : Color32) (px py : Nat) : Color32 :=
  let i := py * image.placement.width + px
  match image.content with
  | SwashContent.mask =>
      Color32.from_rgba_unmultiplied default_color.r default_color.g default_color.b
        (image.data.getD i 0)
  | SwashContent.color =>
      Color32.from_rgba_premultiplied (image.data.getD (4 * i) 0) (image.data.getD (4 * i + 1) 0)
        (image.data.getD (4 * i + 2) 0) (image.data.getD (4 * i + 3) 0)
  | SwashContent.subpixelMask =>
      Color32.from_rgba_premultiplied (image.data.getD (4 * i) 0) (image.data.getD (4 * i + 1) 0)
        (image.data.getD (4 * i + 2) 0) (image.data.getD (4 * i + 3) 0)

/-- Model of `write_glyph_image`: write a `SwashImage` into the subregion of the
surface whose min corner is `(x0, y0)`; pixels outside the subregion are
untouched. -/
def write_glyph_image (image : SwashImage) (default_color : Color32) (x0 y0 : Nat)
    (dst : Nat → Nat → Color32) : Nat → Nat → Color32 :=
  fun x y =>
    if inRect x0 y0 image.placement.width image.placement.height x y then
      glyph_pixel image default_color (x - x0) (y - y0)
    else dst x y

/-- A drawable glyph (`GlyphImage`).  The source stores `uv_rect` as `f32`
fractions `rect.min / atlas_side`; the embedding keeps the exact integer
numerators (`uv_min`) and the denominator (`atlas_side`).  The opaque
`atlas_texture_id` is not represented. -/
structure GlyphImage where
  uv_min : Point
  atlas_side : Nat
  default_color : Color32
  colorable : Bool
  top : Int
  left : Int
  width : Nat
  height : Nat
deriving DecidableEq, Repr

/-- Model of `GlyphImage::new`. -/
def GlyphImage.new (atlas_side : Nat) (rect : Rectangle) (placement : Placement)
    (default_color : Color32) (colorable : Bool) : GlyphImage :=
  { uv_min := rect.min
    atlas_side := atlas_side
    default_color := default_color
    colorable := colorable
    top := placement.top
    left := placement.left
    width := placement.width
    height := placement.height }

/-- The tint computed by `GlyphImage::paint`: a colorable (mask) glyph uses
the optional override or the default colour; a non-colorable glyph is
always tinted white. -/
def GlyphImage.paint_tint (g : GlyphImage) (color_override : Option Color32) : Color32 :=
  if g.colorable then color_override.getD g.default_color else Color32.white

/-- The external `etagere::BucketedAtlasAllocator`, abstracted as the three
operations the source invokes on it, over an arbitrary packer state `P`.
`allocate` returns `none` when no contiguous free space exists and leaves
the state unchanged in that case. -/
structure PackerOps (P : Type) where
  allocate : P → Nat → Nat → Option (Allocation × P)
  deallocate : P → Nat → P
  grow : P → Nat → P

/-- The `TextureAtlas` struct.  `texture` is the pixel contents of the
atlas texture (its side length is `atlas_side`); the `egui::Context` field
is represented only by the explicitly passed `max_texture_side` values. -/
structure TextureAtlas (P : Type) where
  packer : P
  cache : Cache
  in_use : List Key
  atlas_side : Nat
  max_texture_side : Nat
  texture : Nat → Nat → Color32
  default_color : Color32

/-- Model of `TextureAtlas::new`: side 256, fresh packer (supplied by the external
allocator as `packer0`), empty cache and in-use set, transparent texture,
ceiling as reported by the context. -/
def TextureAtlas.new {P : Type} (packer0 : P) (max_texture_side : Nat)
    (default_color : Color32) : TextureAtlas P :=
  { packer := packer0
    cache := []
    in_use := []
    atlas_side := 256
    max_texture_side := max_texture_side
    texture := fun _ _ => Color32.transparent
    default_color := default_color }

/-- Model of `TextureAtlas::promote`: promote in the LRU cache and mark in-use. -/
def TextureAtlas.promote {P : Type} (s : TextureAtlas P) (cache_key : Key) : TextureAtlas P :=
  { s with cache := cachePromote s.cache cache_key, in_use := insertKey s.in_use cache_key }

/-- Model of `TextureAtlas::put`: insert into the LRU cache and mark in-use. -/
def TextureAtlas.put {P : Type} (s : TextureAtlas P) (cache_key : Key)
    (value : Option GlyphState) : TextureAtlas P :=
  { s with cache := cachePut s.cache cache_key value, in_use := insertKey s.in_use cache_key }

/-- Model of `TextureAtlas::trim`: clear the in-use set. -/
def TextureAtlas.trim {P : Type} (s : TextureAtlas P) : TextureAtlas P :=
  { s with in_use := [] }

/-- Model of `TextureAtlas::update_max_texture_side`: re-query the ceiling from the
context (the newly reported value is the argument). -/
def TextureAtlas.update_max_texture_side {P : Type} (s : TextureAtlas P)
    (reported : Nat) : TextureAtlas P :=
  { s with max_texture_side := reported }

/-- One step of `grow`'s recopy loop over the cached entries: a sentinel
entry is skipped without rasterizing; a packed entry is re-rasterized
(counted) and, when the rasterizer returns an image, written at its
allocation's min corner into the surface being rebuilt. -/
def grow_step (rz : Key → Option SwashImage) (default_color : Color32)
    (acc : (Nat → Nat → Color32) × Nat) (e : Key × Option GlyphState) :
    (Nat → Nat → Color32) × Nat :=
  match e.2 with
  | none => acc
  | some state =>
    match rz e.1 with
    | none => (acc.1, acc.2 + 1)
    | some image =>
        (write_glyph_image image default_color state.allocation.rectangle.min.x
          state.allocation.rectangle.min.y acc.1, acc.2 + 1)

/-- Model of `TextureAtlas::grow`.  The source asserts `atlas_side <
max_texture_side` (modelled by the `none` = panic result), doubles the
side capped at the ceiling (`at_most` = `min`), grows the packer,
rebuilds a transparent surface and re-rasterizes every cached
`Some`-entry into it, iterating the cache most-recently-used first as
`LruCache::iter` does.  The second result component counts rasterizer
invocations. -/
def TextureAtlas.grow {P : Type} (ops : PackerOps P) (rz : Key → Option SwashImage)
    (s : TextureAtlas P) : Option (TextureAtlas P × Nat) :=
  if s.atlas_side < s.max_texture_side then
    let new_side_size := min (s.atlas_side * 2) s.max_texture_side
    let packer1 := ops.grow s.packer new_side_size
    let r := s.cache.reverse.foldl (grow_step rz s.default_color)
      (fun _ _ => Color32.transparent, 0)
    some ({ s with atlas_side := new_side_size, packer := packer1, texture := r.1 }, r.2)
  else none

/-- The eviction loop inside `TextureAtlas::alloc_packer`, entered after a
failed `allocate`: peek the LRU entry; if it is in use this frame, give up
(the atlas must grow); otherwise pop it; sentinels are discarded and the
loop continues, a packed entry is deallocated and `allocate` is retried.
Returns the allocation (if any), the packer state and the cache. -/
def TextureAtlas.alloc_packer_go {P : Type} (ops : PackerOps P) (p : P) (cache : Cache)
    (in_use : List Key) (width height : Nat) : Option Allocation × P × Cache :=
  match cache with
  | [] => (none, p, [])
  | (key, value) :: rest =>
    if key ∈ in_use then
      (none, p, (key, value) :: rest)
    else
      match value with
      | none => TextureAtlas.alloc_packer_go ops p rest in_use width height
      | some state =>
        let p1 := ops.deallocate p state.allocation.id
        match ops.allocate p1 width height with
        | some (alloc, p2) => (some alloc, p2, rest)
        | none => TextureAtlas.alloc_packer_go ops p1 rest in_use width height

/-- Model of `TextureAtlas::alloc_packer`: try to allocate, evicting least-recently
used glyphs not in use this frame while allocation keeps failing. -/
def TextureAtlas.alloc_packer {P : Type} (ops : PackerOps P) (s : TextureAtlas P)
    (width height : Nat) : Option Allocation × TextureAtlas P :=
  match ops.allocate s.packer width height with
  | some (alloc, p1) => (some alloc, { s with packer := p1 })
  | none =>
    let r := TextureAtlas.alloc_packer_go ops s.packer s.cache s.in_use width height
    (r.1, { s with packer := r.2.1, cache := r.2.2 })

/-- Result of a call that may panic (`assert!`) or exhaust the embedding's
explicit fuel for the source's unbounded retry loop. -/
inductive Outcome (α : Type) where
  | ok (val : α)
  | panic
  | noFuel

/-- The pack-or-evict-or-grow loop of `TextureAtlas::alloc` for a
rasterized nonzero-size image: try `alloc_packer`; on success record the
`GlyphState`, `put` it, upload the pixels at the allocated rectangle and
return the drawable; on failure `grow` and retry.  `count` accumulates
rasterizer invocations; `fuel` bounds the retries (the source loop's
termination argument is that every `grow` strictly increases the side). -/
def TextureAtlas.alloc_loop {P : Type} (ops : PackerOps P) (rz : Key → Option SwashImage)
    (cache_key : Key) (image : SwashImage) :
    Nat → TextureAtlas P → Nat → Outcome (Option GlyphImage × TextureAtlas P × Nat)
  | 0, _, _ => Outcome.noFuel
  | fuel + 1, s, count =>
    match TextureAtlas.alloc_packer ops s image.placement.width image.placement.height with
    | (some alloc, s1) =>
      let state : GlyphState :=
        { allocation := alloc
          placement := image.placement
          colorable := decide (image.content = SwashContent.mask) }
      let s2 := s1.put cache_key (some state)
      let s3 := { s2 with
        texture := write_glyph_image image s2.default_color alloc.rectangle.min.x
          alloc.rectangle.min.y s2.texture }
      Outcome.ok
        (some (GlyphImage.new s3.atlas_side alloc.rectangle image.placement s3.default_color
          state.colorable), s3, count)
    | (none, s1) =>
      match TextureAtlas.grow ops rz s1 with
      | none => Outcome.panic
      | some (s2, n) => TextureAtlas.alloc_loop ops rz cache_key image fuel s2 (count + n)

/-- Model of `TextureAtlas::alloc`.  Cache hit: `get` (which promotes), `promote`
(promote again and mark in-use), return the drawable or `none` for the
empty sentinel.  Cache miss: rasterize; a rasterization failure returns
`none` immediately (the `?` operator — nothing is cached); a zero-size
image stores the sentinel via `put` and returns `none`; otherwise enter
the pack-or-evict-or-grow loop.  The third component of an `ok` result
counts rasterizer invocations during the call. -/
def TextureAtlas.alloc {P : Type} (ops : PackerOps P) (rz : Key → Option SwashImage)
    (cache_key : Key) (fuel : Nat) (s : TextureAtlas P) :
    Outcome (Option GlyphImage × TextureAtlas P × Nat) :=
  match cacheGet s.cache cache_key with
  | (some entry, cache1) =>
    let s1 := { s with cache := cache1 }
    let s2 := s1.promote cache_key
    match entry with
    | none => Outcome.ok (none, s2, 0)
    | some state =>
      Outcome.ok
        (some (GlyphImage.new s2.atlas_side state.allocation.rectangle state.placement
          s2.default_color state.colorable), s2, 0)
  | (none, _) =>
    match rz cache_key with
    | none => Outcome.ok (none, s, 1)
    | some image =>
      if image.placement.width = 0 ∨ image.placement.height = 0 then
        Outcome.ok (none, s.put cache_key none, 1)
      else
        TextureAtlas.alloc_loop ops rz cache_key image fuel s 1

/-- A wrapper around arbitrary packer operations that additionally records
the ids passed to `deallocate`, used to state that eviction never
deallocates an in-use glyph's region. -/
def recordingOps {P : Type} (ops : PackerOps P) : PackerOps (P × List Nat) :=
  { allocate := fun q w h => (ops.allocate q.1 w h).map (fun r => (r.1, (r.2, q.2)))
    deallocate := fun q i => (ops.deallocate q.1 i, i :: q.2)
    grow := fun q side => (ops.grow q.1 side, q.2) }

/-- A packer whose `allocate` always fails (a permanently full atlas). -/
def fullOps : PackerOps Unit :=
  { allocate := fun _ _ _ => none
    deallocate := fun p _ => p
    grow := fun p _ => p }

/-- A packer whose `allocate` always succeeds at the origin with id 0. -/
def originOps : PackerOps Unit :=
  { allocate := fun p _ _ => some ({ id := 0, rectangle := { min := { x := 0, y := 0 } } }, p)
    deallocate := fun p _ => p
    grow := fun p _ => p }

/-- A concrete 1×1 monochrome mask image. -/
def maskImage1 : SwashImage :=
  { placement := { left := 2, top := 3, width := 1, height := 1 }
    content := SwashContent.mask
    data := [255] }

/-- A concrete zero-size image (e.g. a space character). -/
def zeroImage : SwashImage :=
  { placement := { left := 0, top := 0, width := 0, height := 0 }
    content := SwashContent.mask
    data := [] }

/-- A concrete opaque default colour. -/
def black : Color32 := ⟨0, 0, 0, 255⟩

/-- A concrete packed glyph state: a 2×2 glyph at (3, 4) with id 7. -/
def sampleState : GlyphState :=
  { allocation := { id := 7, rectangle := { min := { x := 3, y := 4 } } }
    placement := { left := 0, top := 0, width := 2, height := 2 }
    colorable := true }

/-- A rasterizer that always fails (e.g. corrupt font data). -/
def rzFail : Key → Option SwashImage := fun _ => none

/-- A rasterizer that yields the 1×1 mask for every key. -/
def rzMask : Key → Option SwashImage := fun _ => some maskImage1

/-- A rasterizer that yields the zero-size image for every key. -/
def rzZero : Key → Option SwashImage := fun _ => some zeroImage

/-- Concrete atlas whose LRU entry (key 5) is an in-use sentinel. -/
def sInUseHead : TextureAtlas Unit :=
  { TextureAtlas.new () 1024 black with
      cache := [(5, none), (6, some sampleState)], in_use := [5] }

/-- Concrete atlas whose LRU entry (key 6) is an evictable packed glyph
and whose entry for key 5 is in use. -/
def sEvictable : TextureAtlas Unit :=
  { TextureAtlas.new () 1024 black with
      cache := [(6, some sampleState), (5, none)], in_use := [5] }

/-- Concrete atlas holding an empty sentinel for key 5 (oldest) and a
packed glyph for key 7. -/
def sSentinel : TextureAtlas Unit :=
  { TextureAtlas.new () 1024 black with cache := [(5, none), (7, some sampleState)] }

/-- The state obtained by growing a fresh 1024-ceiling atlas once. -/
def grownState : TextureAtlas Unit :=
  { TextureAtlas.new () 1024 black with atlas_side := 512 }

/-- Concrete atlas below its ceiling holding one packed glyph (key 0). -/
def sOneGlyph : TextureAtlas Unit :=
  { TextureAtlas.new () 512 black with cache := [(0, some sampleState)] }

/-- The glyph state packed for `maskImage1` at the origin with id 0. -/
def packedMaskState : GlyphState :=
  { allocation := { id := 0, rectangle := { min := { x := 0, y := 0 } } }
    placement := maskImage1.placement
    colorable := true }

/-- The atlas state reached by packing `maskImage1` under key 3 into a
fresh 1024-ceiling atlas via the origin packer. -/
def packedMaskAtlas : TextureAtlas Unit :=
  { TextureAtlas.new () 1024 black with
      cache := [(3, some packedMaskState)]
      in_use := [3]
      texture := write_glyph_image maskImage1 black 0 0 (fun _ _ => Color32.transparent) }

/-- The drawable returned for that packing. -/
def packedMaskGlyph : GlyphImage :=
  GlyphImage.new 256 { min := { x := 0, y := 0 } } maskImage1.placement black true

/-- A drawable whose bitmap carries its own colour (not colorable). -/
def untintedGlyph : GlyphImage :=
  GlyphImage.new 256 { min := { x := 0, y := 0 } } maskImage1.placement black false

/-
  Supporting lemmas about the cache model and the embedded operations.
-/

theorem cacheGetEntry_nil (k : Key) : cacheGetEntry [] k = none := rfl

theorem cacheGet_of_none {c : Cache} {k : Key} (h : cacheGetEntry c k = none) :
    cacheGet c k = (none, c) := by
  unfold cacheGet
  rw [h]

theorem cacheGet_of_some {c : Cache} {k : Key} {v : Option GlyphState}
    (h : cacheGetEntry c k = some v) :
    cacheGet c k = (some v, c.eraseP (fun e => e.1 == k) ++ [(k, v)]) := by
  unfold cacheGet
  rw [h]

theorem cacheGetEntry_cons_ne {key k : Key} {v : Option GlyphState} {rest : Cache}
    (h : key ≠ k) : cacheGetEntry ((key, v) :: rest) k = cacheGetEntry rest k := by
  unfold cacheGetEntry
  rw [List.find?_cons_of_neg _ (by simp [h])]

theorem find?_eq_none_of_getEntry_none {c : Cache} {k : Key}
    (h : cacheGetEntry c k = none) : c.find? (fun e => e.1 == k) = none := by
  unfold cacheGetEntry at h
  exact Option.map_eq_none.mp h

theorem eraseP_of_forall_neg {α : Type} (p : α → Bool) :
    ∀ l : List α, (∀ x ∈ l, ¬ p x = true) → l.eraseP p = l
  | [], _ => rfl
  | a :: t, h => by
    have ha : p a = false := by simpa using h a (by simp)
    simp [List.eraseP_cons, ha,
      eraseP_of_forall_neg p t (fun x hx => h x (List.mem_cons_of_mem _ hx))]

theorem find?_append_of_forall_neg {α : Type} (p : α → Bool) :
    ∀ l1 l2 : List α, (∀ x ∈ l1, ¬ p x = true) → (l1 ++ l2).find? p = l2.find? p
  | [], _, _ => rfl
  | a :: t, l2, h => by
    have ha : p a = false := by simpa using h a (by simp)
    rw [List.cons_append, List.find?_cons_of_neg _ (by simp [ha])]
    exact find?_append_of_forall_neg p t l2 (fun x hx => h x (List.mem_cons_of_mem _ hx))

theorem eraseP_of_getEntry_none {c : Cache} {k : Key} (h : cacheGetEntry c k = none) :
    c.eraseP (fun e => e.1 == k) = c :=
  eraseP_of_forall_neg _ c (List.find?_eq_none.mp (find?_eq_none_of_getEntry_none h))

theorem cacheGetEntry_append_right {c : Cache} {k : Key} {v : Option GlyphState}
    (h : cacheGetEntry c k = none) : cacheGetEntry (c ++ [(k, v)]) k = some v := by
  unfold cacheGetEntry
  rw [find?_append_of_forall_neg _ c _
    (List.find?_eq_none.mp (find?_eq_none_of_getEntry_none h))]
  simp [List.find?]

theorem cacheGetEntry_put_of_none {c : Cache} {k : Key} {v : Option GlyphState}
    (h : cacheGetEntry c k = none) : cacheGetEntry (cachePut c k v) k = some v := by
  unfold cachePut
  rw [eraseP_of_getEntry_none h]
  exact cacheGetEntry_append_right h

theorem cacheGetEntry_none_of_suffix {c c' : Cache} {k : Key} (hs : c' <:+ c)
    (h : cacheGetEntry c k = none) : cacheGetEntry c' k = none := by
  have hf := find?_eq_none_of_getEntry_none h
  have hall := List.find?_eq_none.mp hf
  unfold cacheGetEntry
  rw [List.find?_eq_none.mpr (fun x hx => hall x (hs.subset hx))]
  rfl

theorem alloc_packer_go_suffix {P : Type} (ops : PackerOps P) :
    ∀ (cache : Cache) (p : P) (in_use : List Key) (w h : Nat),
      (TextureAtlas.alloc_packer_go ops p cache in_use w h).2.2 <:+ cache
  | [], p, u, w, h => by simp [TextureAtlas.alloc_packer_go]
  | (key, value) :: rest, p, u, w, h => by
    rw [TextureAtlas.alloc_packer_go.eq_def]; dsimp only
    by_cases hk : key ∈ u
    · simp [hk]
    · simp only [hk, if_false]
      cases value with
      | none => exact (alloc_packer_go_suffix ops rest p u w h).trans (List.suffix_cons _ _)
      | some st =>
        cases hal : ops.allocate (ops.deallocate p st.allocation.id) w h with
        | some r =>
          simp only [hal]
          exact List.suffix_cons _ _
        | none =>
          simp only [hal]
          exact (alloc_packer_go_suffix ops rest _ u w h).trans (List.suffix_cons _ _)

theorem alloc_packer_go_in_use {P : Type} (ops : PackerOps P) :
    ∀ (cache : Cache) (p : P) (in_use : List Key) (w h : Nat) (k : Key), k ∈ in_use →
      cacheGetEntry (TextureAtlas.alloc_packer_go ops p cache in_use w h).2.2 k
        = cacheGetEntry cache k
  | [], p, u, w, h, k, _ => by simp [TextureAtlas.alloc_packer_go]
  | (key, value) :: rest, p, u, w, h, k, hk => by
    rw [TextureAtlas.alloc_packer_go.eq_def]; dsimp only
    by_cases hmem : key ∈ u
    · simp [hmem]
    · have hne : key ≠ k := fun he => hmem (he ▸ hk)
      simp only [hmem, if_false]
      cases value with
      | none =>
        rw [alloc_packer_go_in_use ops rest p u w h k hk, cacheGetEntry_cons_ne hne]
      | some st =>
        cases hal : ops.allocate (ops.deallocate p st.allocation.id) w h with
        | some r =>
          simp only [hal]
          rw [cacheGetEntry_cons_ne hne]
        | none =>
          simp only [hal]
          rw [alloc_packer_go_in_use ops rest _ u w h k hk, cacheGetEntry_cons_ne hne]

theorem alloc_packer_go_deallocs {P : Type} (ops : PackerOps P) :
    ∀ (cache : Cache) (p : P) (l : List Nat) (in_use : List Key) (w h : Nat) (i : Nat),
      i ∈ (TextureAtlas.alloc_packer_go (recordingOps ops) (p, l) cache in_use w h).2.1.2 →
      i ∈ l ∨ ∃ k st, (k, some st) ∈ cache ∧ k ∉ in_use ∧ st.allocation.id = i
  | [], p, l, u, w, h, i, hi => by
    simp [TextureAtlas.alloc_packer_go] at hi
    exact Or.inl hi
  | (key, value) :: rest, p, l, u, w, h, i, hi => by
    rw [TextureAtlas.alloc_packer_go.eq_def] at hi; dsimp only at hi
    by_cases hmem : key ∈ u
    · simp only [hmem, if_true] at hi
      exact Or.inl hi
    · simp only [hmem, if_false] at hi
      cases value with
      | none =>
        rcases alloc_packer_go_deallocs ops rest p l u w h i hi with h1 | ⟨k, st, h2, h3, h4⟩
        · exact Or.inl h1
        · exact Or.inr ⟨k, st, List.mem_cons_of_mem _ h2, h3, h4⟩
      | some st =>
        dsimp only at hi
        have hdeal : (recordingOps ops).deallocate (p, l) st.allocation.id
            = (ops.deallocate p st.allocation.id, st.allocation.id :: l) := rfl
        rw [hdeal] at hi
        cases hal : (recordingOps ops).allocate (ops.deallocate p st.allocation.id,
            st.allocation.id :: l) w h with
        | some r =>
          rw [hal] at hi
          have hlog : r.2.2 = st.allocation.id :: l := by
            have : (ops.allocate (ops.deallocate p st.allocation.id) w h).map
                (fun t => (t.1, (t.2, st.allocation.id :: l))) = some r := hal
            cases hbase : ops.allocate (ops.deallocate p st.allocation.id) w h with
            | none => rw [hbase] at this; exact absurd this (by simp)
            | some t =>
              rw [hbase] at this
              rw [Option.map_some'] at this
              injection this with h2
              rw [← h2]
          simp only [hlog] at hi
          rcases List.mem_cons.mp hi with h1 | h1
          · exact Or.inr ⟨key, st, List.mem_cons_self _ _, hmem, h1.symm⟩
          · exact Or.inl h1
        | none =>
          rw [hal] at hi
          rcases alloc_packer_go_deallocs ops rest _ _ u w h i hi with h1 | ⟨k, st', h2, h3, h4⟩
          · rcases List.mem_cons.mp h1 with h5 | h5
            · exact Or.inr ⟨key, st, List.mem_cons_self _ _, hmem, h5.symm⟩
            · exact Or.inl h5
          · exact Or.inr ⟨k, st', List.mem_cons_of_mem _ h2, h3, h4⟩

theorem alloc_packer_state {P : Type} (ops : PackerOps P) (s : TextureAtlas P) (w h : Nat) :
    (TextureAtlas.alloc_packer ops s w h).2.cache <:+ s.cache ∧
    (TextureAtlas.alloc_packer ops s w h).2.in_use = s.in_use ∧
    (TextureAtlas.alloc_packer ops s w h).2.atlas_side = s.atlas_side ∧
    (TextureAtlas.alloc_packer ops s w h).2.max_texture_side = s.max_texture_side ∧
    (TextureAtlas.alloc_packer ops s w h).2.texture = s.texture ∧
    (TextureAtlas.alloc_packer ops s w h).2.default_color = s.default_color := by
  unfold TextureAtlas.alloc_packer
  cases hal : ops.allocate s.packer w h with
  | some r => simp
  | none => simpa using alloc_packer_go_suffix ops s.cache s.packer s.in_use w h

theorem grow_result {P : Type} (ops : PackerOps P) (rz : Key → Option SwashImage)
    (s s' : TextureAtlas P) (n : Nat) (h : TextureAtlas.grow ops rz s = some (s', n)) :
    s.atlas_side < s.max_texture_side ∧
    s'.atlas_side = min (s.atlas_side * 2) s.max_texture_side ∧
    s'.max_texture_side = s.max_texture_side ∧
    s'.cache = s.cache ∧ s'.in_use = s.in_use ∧ s'.default_color = s.default_color := by
  unfold TextureAtlas.grow at h
  by_cases hlt : s.atlas_side < s.max_texture_side
  · rw [if_pos hlt] at h
    dsimp only at h
    rw [Option.some.injEq, Prod.mk.injEq] at h
    obtain ⟨hA, hB⟩ := h
    subst hA
    exact ⟨hlt, rfl, rfl, rfl, rfl, rfl⟩
  · rw [if_neg hlt] at h
    exact Option.noConfusion h

theorem alloc_loop_side {P : Type} (ops : PackerOps P) (rz : Key → Option SwashImage)
    (key : Key) (image : SwashImage) :
    ∀ (fuel : Nat) (s : TextureAtlas P) (count : Nat) (r : Option GlyphImage)
      (s' : TextureAtlas P) (n : Nat),
      TextureAtlas.alloc_loop ops rz key image fuel s count = Outcome.ok (r, s', n) →
      s.atlas_side ≤ s'.atlas_side ∧ s'.max_texture_side = s.max_texture_side ∧
      (s.atlas_side ≤ s.max_texture_side → s'.atlas_side ≤ s'.max_texture_side)
  | 0, s, count, r, s', n, h => by exact Outcome.noConfusion h
  | fuel + 1, s, count, r, s', n, h => by
    rw [TextureAtlas.alloc_loop] at h
    have hst := alloc_packer_state ops s image.placement.width image.placement.height
    cases hap : TextureAtlas.alloc_packer ops s image.placement.width
        image.placement.height with
    | mk o s1 =>
      rw [hap] at h hst
      cases o with
      | some alloc =>
        dsimp only at h
        rw [Outcome.ok.injEq, Prod.mk.injEq] at h
        obtain ⟨-, hs⟩ := h
        rw [Prod.mk.injEq] at hs
        obtain ⟨hs, -⟩ := hs
        subst hs
        dsimp only [TextureAtlas.put]
        exact ⟨le_of_eq hst.2.2.1.symm, hst.2.2.2.1, fun hle => by
          rw [hst.2.2.1, hst.2.2.2.1]; exact hle⟩
      | none =>
        dsimp only at h
        cases hg : TextureAtlas.grow ops rz s1 with
        | none => rw [hg] at h; exact Outcome.noConfusion h
        | some t =>
          rw [hg] at h
          obtain ⟨s2, n2⟩ := t
          have hgr := grow_result ops rz s1 s2 n2 hg
          have ih := alloc_loop_side ops rz key image fuel s2 (count + n2) r s' n h
          refine ⟨?_, ?_, fun _ => ?_⟩
          · calc s.atlas_side = s1.atlas_side := hst.2.2.1.symm
              _ ≤ s2.atlas_side := by
                  rw [hgr.2.1]
                  exact le_min (by omega) (le_of_lt hgr.1)
              _ ≤ s'.atlas_side := ih.1
          · rw [ih.2.1, hgr.2.2.1, hst.2.2.2.1]
          · exact ih.2.2 (by rw [hgr.2.1, hgr.2.2.1]; exact min_le_right _ _)

theorem alloc_loop_result {P : Type} (ops : PackerOps P) (rz : Key → Option SwashImage)
    (key : Key) (image : SwashImage) :
    ∀ (fuel : Nat) (s : TextureAtlas P) (count : Nat) (g : Option GlyphImage)
      (s' : TextureAtlas P) (n : Nat),
      cacheGetEntry s.cache key = none →
      TextureAtlas.alloc_loop ops rz key image fuel s count = Outcome.ok (g, s', n) →
      (∃ gi, g = some gi ∧ gi.colorable = decide (image.content = SwashContent.mask)) ∧
      ∃ st : GlyphState, cacheGetEntry s'.cache key = some (some st) ∧
        st.colorable = decide (image.content = SwashContent.mask)
  | 0, s, count, g, s', n, _, h => by exact Outcome.noConfusion h
  | fuel + 1, s, count, g, s', n, hmiss, h => by
    rw [TextureAtlas.alloc_loop] at h
    have hst := alloc_packer_state ops s image.placement.width image.placement.height
    cases hap : TextureAtlas.alloc_packer ops s image.placement.width
        image.placement.height with
    | mk o s1 =>
      rw [hap] at h hst
      have hmiss1 : cacheGetEntry s1.cache key = none :=
        cacheGetEntry_none_of_suffix hst.1 hmiss
      cases o with
      | some alloc =>
        dsimp only at h
        rw [Outcome.ok.injEq, Prod.mk.injEq] at h
        obtain ⟨hg, hs⟩ := h
        rw [Prod.mk.injEq] at hs
        obtain ⟨hs, -⟩ := hs
        subst hs
        constructor
        · exact ⟨_, hg.symm, rfl⟩
        · refine ⟨⟨alloc, image.placement, decide (image.content = SwashContent.mask)⟩,
            ?_, rfl⟩
          dsimp only [TextureAtlas.put]
          exact cacheGetEntry_put_of_none hmiss1
      | none =>
        dsimp only at h
        cases hg : TextureAtlas.grow ops rz s1 with
        | none => rw [hg] at h; exact Outcome.noConfusion h
        | some t =>
          rw [hg] at h
          obtain ⟨s2, n2⟩ := t
          have hgr := grow_result ops rz s1 s2 n2 hg
          have hmiss2 : cacheGetEntry s2.cache key = none := by
            rw [hgr.2.2.2.1]; exact hmiss1
          exact alloc_loop_result ops rz key image fuel s2 (count + n2) g s' n hmiss2 h

/-
  Claim theorems.
-/

/-- C5: every growth event with `atlas_side < max_texture_side` produces
the new side `min (atlas_side * 2) max_texture_side`; growth with the side
at (or beyond) the ceiling is rejected by the assertion (modelled as the
`none`/panic result); a successful growth never exceeds the ceiling. -/
theorem grow_doubles_capped {P : Type} (ops : PackerOps P) (rz : Key → Option SwashImage)
    (s : TextureAtlas P) :
    (s.atlas_side < s.max_texture_side →
      (TextureAtlas.grow ops rz s).map (fun x => x.1.atlas_side)
        = some (min (s.atlas_side * 2) s.max_texture_side))
    ∧ (¬ s.atlas_side < s.max_texture_side → TextureAtlas.grow ops rz s = none)
    ∧ (∀ (s' : TextureAtlas P) (n : Nat), TextureAtlas.grow ops rz s = some (s', n) →
        s'.atlas_side ≤ s'.max_texture_side) := by
  refine ⟨fun hlt => ?_, fun hge => ?_, fun s' n hg => ?_⟩
  · unfold TextureAtlas.grow
    rw [if_pos hlt]
    rfl
  · unfold TextureAtlas.grow
    rw [if_neg hge]
  · have hgr := grow_result ops rz s s' n hg
    rw [hgr.2.1, hgr.2.2.1]
    exact min_le_right _ _

/-- Witness for C5: a 256-side atlas with ceiling 1024 grows to 512; a
256-side atlas with ceiling 256 panics on growth. -/
theorem grow_doubles_capped_wit :
    (TextureAtlas.grow fullOps rzFail (TextureAtlas.new () 1024 black)).map
      (fun x => x.1.atlas_side) = some (min (256 * 2) 1024)
    ∧ TextureAtlas.grow fullOps rzFail (TextureAtlas.new () 256 black) = none :=
  ⟨(grow_doubles_capped fullOps rzFail (TextureAtlas.new () 1024 black)).1 (by decide),
   (grow_doubles_capped fullOps rzFail (TextureAtlas.new () 256 black)).2.1 (by decide)⟩

/-- Counterexample for C1: with the atlas side already at the ceiling
(256 = 256), a full packer, and a 1×1 glyph to place, `alloc` hits the
`assert!` in `grow` and panics — it does not return a caller-visible
failure value. -/
theorem alloc_at_ceiling_aborts_cex :
    TextureAtlas.alloc fullOps rzMask 0 1 (TextureAtlas.new () 256 black)
      = Outcome.panic := rfl

/-- C1 (amended): whenever the pack-or-evict loop cannot proceed (the
packer cannot allocate even after eviction) and the side is at or beyond
the ceiling, `alloc` terminates by panicking in `grow`'s assertion rather
than returning a failure result. -/
theorem alloc_at_ceiling_panics {P : Type} (ops : PackerOps P) (rz : Key → Option SwashImage)
    (key : Key) (fuel : Nat) (s : TextureAtlas P) (image : SwashImage)
    (hmiss : cacheGetEntry s.cache key = none)
    (himg : rz key = some image)
    (hsize : ¬ (image.placement.width = 0 ∨ image.placement.height = 0))
    (hfail : (TextureAtlas.alloc_packer ops s image.placement.width
        image.placement.height).1 = none)
    (hmax : ¬ s.atlas_side < s.max_texture_side)
    (hfuel : fuel ≠ 0) :
    TextureAtlas.alloc ops rz key fuel s = Outcome.panic := by
  obtain ⟨f, rfl⟩ : ∃ f, fuel = f + 1 := ⟨fuel - 1, by omega⟩
  unfold TextureAtlas.alloc
  rw [cacheGet_of_none hmiss]
  dsimp only
  rw [himg]
  dsimp only
  rw [if_neg hsize]
  rw [TextureAtlas.alloc_loop]
  have hst := alloc_packer_state ops s image.placement.width image.placement.height
  cases hap : TextureAtlas.alloc_packer ops s image.placement.width
      image.placement.height with
  | mk o s1 =>
    rw [hap] at hst hfail
    dsimp only at hfail
    subst hfail
    dsimp only
    have hgrow : TextureAtlas.grow ops rz s1 = none := by
      unfold TextureAtlas.grow
      rw [if_neg (by rw [hst.2.2.1, hst.2.2.2.1]; exact hmax)]
    rw [hgrow]

/-- Witness for C1 (amended), at the concrete ceiling scenario. -/
theorem alloc_at_ceiling_panics_wit :
    TextureAtlas.alloc fullOps rzMask 0 1 (TextureAtlas.new () 256 black)
      = Outcome.panic :=
  alloc_at_ceiling_panics fullOps rzMask 0 1 (TextureAtlas.new () 256 black) maskImage1
    rfl rfl (by decide) rfl (by decide) (by decide)

/-- C4 (amended): the atlas side is monotonically non-decreasing across
`grow`, `alloc`, `trim` and `update_max_texture_side`, and `new` starts it
at 256; a successful `grow` always re-establishes `atlas_side ≤
max_texture_side` and `alloc` preserves it, but `new` with a reported
ceiling below 256 and `update_max_texture_side` with a lowered ceiling can
violate it (the code never clamps). -/
theorem atlas_side_monotone {P : Type} (ops : PackerOps P) (rz : Key → Option SwashImage) :
    (∀ (s s' : TextureAtlas P) (n : Nat), TextureAtlas.grow ops rz s = some (s', n) →
        s.atlas_side ≤ s'.atlas_side ∧ s'.atlas_side ≤ s'.max_texture_side)
    ∧ (∀ (key fuel : Nat) (s : TextureAtlas P) (r : Option GlyphImage)
        (s' : TextureAtlas P) (n : Nat),
        TextureAtlas.alloc ops rz key fuel s = Outcome.ok (r, s', n) →
        s.atlas_side ≤ s'.atlas_side ∧ s'.max_texture_side = s.max_texture_side ∧
        (s.atlas_side ≤ s.max_texture_side → s'.atlas_side ≤ s'.max_texture_side))
    ∧ (∀ s : TextureAtlas P, (TextureAtlas.trim s).atlas_side = s.atlas_side)
    ∧ (∀ (s : TextureAtlas P) (m : Nat),
        (TextureAtlas.update_max_texture_side s m).atlas_side = s.atlas_side)
    ∧ (∀ (p0 : P) (m : Nat) (c : Color32), (TextureAtlas.new p0 m c).atlas_side = 256) := by
  refine ⟨fun s s' n hg => ?_, fun key fuel s r s' n h => ?_,
    fun s => rfl, fun s m => rfl, fun p0 m c => rfl⟩
  · have hgr := grow_result ops rz s s' n hg
    constructor
    · rw [hgr.2.1]
      exact le_min (by omega) (le_of_lt hgr.1)
    · rw [hgr.2.1, hgr.2.2.1]
      exact min_le_right _ _
  · unfold TextureAtlas.alloc at h
    cases hg : cacheGet s.cache key with
    | mk e c1 =>
      rw [hg] at h
      cases e with
      | some entry =>
        dsimp only at h
        cases entry with
        | none =>
          rw [Outcome.ok.injEq, Prod.mk.injEq] at h
          obtain ⟨-, hs⟩ := h
          rw [Prod.mk.injEq] at hs
          obtain ⟨hs, -⟩ := hs
          subst hs
          exact ⟨le_refl _, rfl, fun hle => hle⟩
        | some st =>
          rw [Outcome.ok.injEq, Prod.mk.injEq] at h
          obtain ⟨-, hs⟩ := h
          rw [Prod.mk.injEq] at hs
          obtain ⟨hs, -⟩ := hs
          subst hs
          exact ⟨le_refl _, rfl, fun hle => hle⟩
      | none =>
        dsimp only at h
        cases himg : rz key with
        | none =>
          rw [himg] at h
          dsimp only at h
          rw [Outcome.ok.injEq, Prod.mk.injEq] at h
          obtain ⟨-, hs⟩ := h
          rw [Prod.mk.injEq] at hs
          obtain ⟨hs, -⟩ := hs
          subst hs
          exact ⟨le_refl _, rfl, fun hle => hle⟩
        | some image =>
          rw [himg] at h
          dsimp only at h
          by_cases hz : image.placement.width = 0 ∨ image.placement.height = 0
          · rw [if_pos hz] at h
            rw [Outcome.ok.injEq, Prod.mk.injEq] at h
            obtain ⟨-, hs⟩ := h
            rw [Prod.mk.injEq] at hs
            obtain ⟨hs, -⟩ := hs
            subst hs
            exact ⟨le_refl _, rfl, fun hle => hle⟩
          · rw [if_neg hz] at h
            exact alloc_loop_side ops rz key image fuel s 1 r s' n h

/-- Counterexample for C4: growing a 256-side atlas with ceiling 1024 to
side 512 and then re-querying a lowered ceiling of 256 leaves the side at
512 while the ceiling is 256 — `S ≤ max_texture_side` is violated. -/
theorem side_ceiling_violated_cex :
    ((TextureAtlas.grow fullOps rzFail (TextureAtlas.new () 1024 black)).map
      (fun x => ((TextureAtlas.update_max_texture_side x.1 256).atlas_side,
                 (TextureAtlas.update_max_texture_side x.1 256).max_texture_side)))
      = some (512, 256)
    ∧ ¬ (512 ≤ 256) := ⟨rfl, by decide⟩

/-- Witness for C4, applying the growth conjunct at a concrete state. -/
theorem atlas_side_monotone_wit :
    (TextureAtlas.new (P := Unit) () 1024 black).atlas_side ≤ grownState.atlas_side
    ∧ grownState.atlas_side ≤ grownState.max_texture_side :=
  (atlas_side_monotone fullOps rzFail).1 (TextureAtlas.new () 1024 black) grownState 0 rfl


/-- C2: during `alloc_packer`, an in-use key's cache entry is never popped
(its lookup result is unchanged), eviction is abandoned (returning `none`
with the state untouched, so the caller grows) as soon as the
least-recently-used key is in use, and every id the eviction loop passes
to `deallocate` belongs to a cached packed entry whose key is not in use. -/
theorem alloc_packer_protects_in_use {P : Type} (ops : PackerOps P) (s : TextureAtlas P)
    (w h : Nat) (k : Key) (hk : k ∈ s.in_use) :
    cacheGetEntry (TextureAtlas.alloc_packer ops s w h).2.cache k = cacheGetEntry s.cache k
    ∧ (∀ e, cachePeekLru s.cache = some (k, e) → ops.allocate s.packer w h = none →
        TextureAtlas.alloc_packer ops s w h = (none, s))
    ∧ (∀ (q : P) (i : Nat),
        i ∈ (TextureAtlas.alloc_packer_go (recordingOps ops) (q, [])
          s.cache s.in_use w h).2.1.2 →
        ∃ k' st, (k', some st) ∈ s.cache ∧ k' ∉ s.in_use ∧ st.allocation.id = i) := by
  refine ⟨?_, fun e hpeek hal => ?_, fun q i hi => ?_⟩
  · unfold TextureAtlas.alloc_packer
    cases hal : ops.allocate s.packer w h with
    | some r => rfl
    | none =>
      dsimp only
      exact alloc_packer_go_in_use ops s.cache s.packer s.in_use w h k hk
  · unfold cachePeekLru at hpeek
    cases hc : s.cache with
    | nil => rw [hc] at hpeek; exact Option.noConfusion hpeek
    | cons hd tl =>
      obtain ⟨k1, e1⟩ := hd
      rw [hc] at hpeek
      rw [List.head?_cons, Option.some.injEq] at hpeek
      rw [Prod.mk.injEq] at hpeek
      obtain ⟨hk1, he1⟩ := hpeek
      subst hk1
      subst he1
      unfold TextureAtlas.alloc_packer
      rw [hal]
      dsimp only
      rw [hc]
      rw [TextureAtlas.alloc_packer_go.eq_def]
      dsimp only
      rw [if_pos hk]
      rw [← hc]
  · rcases alloc_packer_go_deallocs ops s.cache q [] s.in_use w h i hi with h1 | h1
    · exact absurd h1 (List.not_mem_nil i)
    · exact h1

/-- Witness for C2, at concrete states: an evictable glyph (key 6, id 7)
next to an in-use key 5, and an in-use sentinel at the LRU position. -/
theorem alloc_packer_protects_in_use_wit :
    cacheGetEntry (TextureAtlas.alloc_packer fullOps sEvictable 1 1).2.cache 5
      = cacheGetEntry sEvictable.cache 5
    ∧ TextureAtlas.alloc_packer fullOps sInUseHead 1 1 = (none, sInUseHead)
    ∧ ∃ k' st, (k', some st) ∈ sEvictable.cache ∧ k' ∉ sEvictable.in_use
        ∧ st.allocation.id = 7 :=
  ⟨(alloc_packer_protects_in_use fullOps sEvictable 1 1 5 (by decide)).1,
   (alloc_packer_protects_in_use fullOps sInUseHead 1 1 5 (by decide)).2.1 none rfl rfl,
   (alloc_packer_protects_in_use fullOps sEvictable 1 1 5 (by decide)).2.2 () 7 (by decide)⟩

/-- Counterexample for C3: on a cache miss whose rasterization fails,
`alloc` returns "no drawable" with the state completely unchanged — the
empty sentinel is NOT stored (the returned state's cache has no entry for
the key), unlike the zero-size case. -/
theorem raster_failure_not_cached_cex :
    TextureAtlas.alloc fullOps rzFail 0 1 (TextureAtlas.new () 1024 black)
      = Outcome.ok (none, TextureAtlas.new () 1024 black, 1)
    ∧ cacheGetEntry (TextureAtlas.new (P := Unit) () 1024 black).cache 0 = none :=
  ⟨rfl, rfl⟩

/-- C3 (amended): on a cache miss, a zero-size rasterization stores the
empty sentinel (via `put`, which also marks the key in use) and returns
"no drawable"; a rasterization failure returns "no drawable" immediately
with nothing cached (so a later call will rasterize again). -/
theorem alloc_miss_empty_or_failure {P : Type} (ops : PackerOps P)
    (rz : Key → Option SwashImage) (key : Key) (fuel : Nat) (s : TextureAtlas P)
    (hmiss : cacheGetEntry s.cache key = none) :
    (rz key = none → TextureAtlas.alloc ops rz key fuel s = Outcome.ok (none, s, 1))
    ∧ (∀ image, rz key = some image →
        image.placement.width = 0 ∨ image.placement.height = 0 →
        TextureAtlas.alloc ops rz key fuel s = Outcome.ok (none, s.put key none, 1)) := by
  constructor
  · intro hrz
    unfold TextureAtlas.alloc
    rw [cacheGet_of_none hmiss]
    dsimp only
    rw [hrz]
  · intro image hrz hz
    unfold TextureAtlas.alloc
    rw [cacheGet_of_none hmiss]
    dsimp only
    rw [hrz]
    dsimp only
    rw [if_pos hz]

/-- Witness for C3 (amended): failure leaves the fresh atlas untouched,
zero-size stores the sentinel. -/
theorem alloc_miss_empty_or_failure_wit :
    TextureAtlas.alloc fullOps rzFail 0 1 (TextureAtlas.new () 1024 black)
      = Outcome.ok (none, TextureAtlas.new () 1024 black, 1)
    ∧ TextureAtlas.alloc fullOps rzZero 0 1 (TextureAtlas.new () 1024 black)
      = Outcome.ok (none, (TextureAtlas.new (P := Unit) () 1024 black).put 0 none, 1) :=
  ⟨(alloc_miss_empty_or_failure fullOps rzFail 0 1 (TextureAtlas.new () 1024 black) rfl).1
      rfl,
   (alloc_miss_empty_or_failure fullOps rzZero 0 1 (TextureAtlas.new () 1024 black) rfl).2
      zeroImage rfl (by decide)⟩

/-- C6: for a glyph identity that rasterizes to zero size, the first
`alloc` rasterizes (count 1), stores the empty sentinel and returns "no
drawable"; the second `alloc` answers from the sentinel with zero
rasterizer invocations. -/
theorem empty_sentinel_idempotent {P : Type} (ops : PackerOps P)
    (rz : Key → Option SwashImage) (key : Key) (fuel1 fuel2 : Nat) (s : TextureAtlas P)
    (hmiss : cacheGetEntry s.cache key = none)
    (image : SwashImage) (himg : rz key = some image)
    (hz : image.placement.width = 0 ∨ image.placement.height = 0) :
    ∃ s1 s2 : TextureAtlas P,
      TextureAtlas.alloc ops rz key fuel1 s = Outcome.ok (none, s1, 1) ∧
      cacheGetEntry s1.cache key = some none ∧
      TextureAtlas.alloc ops rz key fuel2 s1 = Outcome.ok (none, s2, 0) := by
  have h1 := (alloc_miss_empty_or_failure ops rz key fuel1 s hmiss).2 image himg hz
  have hsent : cacheGetEntry (s.put key none).cache key = some none := by
    dsimp only [TextureAtlas.put]
    exact cacheGetEntry_put_of_none hmiss
  refine ⟨s.put key none,
    ({ s.put key none with
        cache := (s.put key none).cache.eraseP (fun e => e.1 == key) ++ [(key, none)] }
      : TextureAtlas P).promote key,
    h1, hsent, ?_⟩
  unfold TextureAtlas.alloc
  rw [cacheGet_of_some hsent]

/-- Witness for C6 on a fresh atlas and the zero-size rasterizer. -/
theorem empty_sentinel_idempotent_wit :
    ∃ s1 s2 : TextureAtlas Unit,
      TextureAtlas.alloc fullOps rzZero 9 1 (TextureAtlas.new () 1024 black)
        = Outcome.ok (none, s1, 1) ∧
      cacheGetEntry s1.cache 9 = some none ∧
      TextureAtlas.alloc fullOps rzZero 9 1 s1 = Outcome.ok (none, s2, 0) :=
  empty_sentinel_idempotent fullOps rzZero 9 1 1 (TextureAtlas.new () 1024 black) rfl
    zeroImage rfl (by decide)

/-- Counterexample for C7: hitting the empty sentinel for key 5 returns
"no drawable" with no rasterization, but it DOES mutate the controller
state: key 5 is added to the (previously empty) in-use set and is
promoted to most-recently-used, reordering the LRU cache. -/
theorem sentinel_hit_mutates_cex :
    (match TextureAtlas.alloc fullOps rzFail 5 1 sSentinel with
     | Outcome.ok (r, s1, n) =>
        r = none ∧ n = 0 ∧ sSentinel.in_use = [] ∧ s1.in_use = [5]
          ∧ s1.cache = [(7, some sampleState), (5, none)]
          ∧ sSentinel.cache = [(5, none), (7, some sampleState)]
     | _ => False) :=
  ⟨rfl, rfl, rfl, rfl, rfl, rfl⟩

/-- C7 (amended): a sentinel cache hit returns "no drawable" with no
rasterization (count 0) and no packer/texture/side change, but the `get`
and `promote` calls move the key to most-recently-used and insert it into
the in-use set. -/
theorem sentinel_hit_promotes {P : Type} (ops : PackerOps P) (rz : Key → Option SwashImage)
    (key : Key) (fuel : Nat) (s : TextureAtlas P)
    (h : cacheGetEntry s.cache key = some none) :
    ∃ s' : TextureAtlas P,
      TextureAtlas.alloc ops rz key fuel s = Outcome.ok (none, s', 0)
      ∧ s'.packer = s.packer ∧ s'.texture = s.texture
      ∧ s'.atlas_side = s.atlas_side ∧ s'.max_texture_side = s.max_texture_side
      ∧ s'.cache = cachePromote (s.cache.eraseP (fun e => e.1 == key) ++ [(key, none)]) key
      ∧ s'.in_use = insertKey s.in_use key := by
  refine ⟨({ s with cache := s.cache.eraseP (fun e => e.1 == key) ++ [(key, none)] }
      : TextureAtlas P).promote key, ?_, rfl, rfl, rfl, rfl, rfl, rfl⟩
  unfold TextureAtlas.alloc
  rw [cacheGet_of_some h]

/-- Witness for C7 (amended) at the concrete sentinel state. -/
theorem sentinel_hit_promotes_wit :
    ∃ s' : TextureAtlas Unit,
      TextureAtlas.alloc fullOps rzFail 5 1 sSentinel = Outcome.ok (none, s', 0)
      ∧ s'.packer = sSentinel.packer ∧ s'.texture = sSentinel.texture
      ∧ s'.atlas_side = sSentinel.atlas_side
      ∧ s'.max_texture_side = sSentinel.max_texture_side
      ∧ s'.cache = cachePromote (sSentinel.cache.eraseP (fun e => e.1 == 5) ++ [(5, none)]) 5
      ∧ s'.in_use = insertKey sSentinel.in_use 5 :=
  sentinel_hit_promotes fullOps rzFail 5 1 sSentinel rfl

/-- Counterexample for C8: with key 0 oldest, `get 0` promotes it, so
`peek_lru` afterwards returns the pair for key 1 instead of key 0 — the
recency order is changed by `get`. -/
theorem lru_get_reorders_cex :
    cachePeekLru [((0 : Key), none), (1, none)] = some (0, none)
    ∧ cachePeekLru (cacheGet [((0 : Key), none), (1, none)] 0).2 = some (1, none)
    ∧ (some ((1 : Key), (none : Option GlyphState)) ≠ some ((0 : Key), none)) :=
  ⟨rfl, rfl, by decide⟩

/-- C8 (amended): the `LruCache::get` the atlas uses promotes on a hit —
it returns the cache with the key moved to most-recently-used (so when
the accessed key was the oldest, `peek_lru` then reports the next-oldest
entry); only a miss leaves the cache unchanged; `peek_lru` itself is a
pure projection and never modifies the cache. -/
theorem cache_get_order_effect (c : Cache) (k : Key) :
    (cacheGetEntry c k = none → cacheGet c k = (none, c))
    ∧ (∀ v, cacheGetEntry c k = some v →
        cacheGet c k = (some v, c.eraseP (fun e => e.1 == k) ++ [(k, v)]))
    ∧ (∀ v rest, c = (k, v) :: rest →
        cachePeekLru (cacheGet c k).2 = cachePeekLru (rest ++ [(k, v)])) := by
  refine ⟨fun h => cacheGet_of_none h, fun v h => cacheGet_of_some h, fun v rest hc => ?_⟩
  subst hc
  have hent : cacheGetEntry ((k, v) :: rest) k = some v := by
    unfold cacheGetEntry
    rw [List.find?_cons_of_pos _ (by simp)]
    rfl
  rw [cacheGet_of_some hent]
  have her : ((k, v) :: rest).eraseP (fun e => e.1 == k) = rest := by
    simp [List.eraseP_cons]
  rw [her]

/-- Witness for C8 (amended) on a two-entry cache. -/
theorem cache_get_order_effect_wit :
    cacheGet ([] : Cache) 0 = (none, [])
    ∧ cacheGet [((0 : Key), none), (1, none)] 0
        = (some none,
           ([((0 : Key), (none : Option GlyphState)), (1, none)].eraseP
             (fun e => e.1 == 0)) ++ [(0, none)])
    ∧ cachePeekLru (cacheGet [((0 : Key), none), (1, none)] 0).2
        = cachePeekLru ([(1, none)] ++ [((0 : Key), none)]) :=
  ⟨(cache_get_order_effect [] 0).1 rfl,
   (cache_get_order_effect [((0 : Key), none), (1, none)] 0).2.1 none rfl,
   (cache_get_order_effect [((0 : Key), none), (1, none)] 0).2.2 none [(1, none)] rfl⟩

/-- C9: a glyph packed by `alloc` on a cache miss records `colorable` true
exactly when the rasterized content is a single-channel mask
(`SwashContent::Mask`), both in the returned drawable and in the cached
record; and painting any non-colorable drawable always uses the white
tint, regardless of the colour override. -/
theorem colorable_iff_mask {P : Type} (ops : PackerOps P) (rz : Key → Option SwashImage)
    (key fuel : Nat) (s : TextureAtlas P) (image : SwashImage) (g : GlyphImage)
    (s' : TextureAtlas P) (n : Nat)
    (hmiss : cacheGetEntry s.cache key = none)
    (himg : rz key = some image)
    (hres : TextureAtlas.alloc ops rz key fuel s = Outcome.ok (some g, s', n)) :
    (g.colorable = true ↔ image.content = SwashContent.mask)
    ∧ (∃ st : GlyphState, cacheGetEntry s'.cache key = some (some st) ∧
        (st.colorable = true ↔ image.content = SwashContent.mask))
    ∧ (∀ (g' : GlyphImage) (ov : Option Color32), g'.colorable = false →
        GlyphImage.paint_tint g' ov = Color32.white) := by
  unfold TextureAtlas.alloc at hres
  rw [cacheGet_of_none hmiss] at hres
  dsimp only at hres
  rw [himg] at hres
  dsimp only at hres
  by_cases hz : image.placement.width = 0 ∨ image.placement.height = 0
  · rw [if_pos hz] at hres
    rw [Outcome.ok.injEq, Prod.mk.injEq] at hres
    exact absurd hres.1 (by simp)
  · rw [if_neg hz] at hres
    obtain ⟨⟨gi, hgi, hcol⟩, st, hst1, hst2⟩ :=
      alloc_loop_result ops rz key image fuel s 1 (some g) s' n hmiss hres
    rw [Option.some.injEq] at hgi
    subst hgi
    refine ⟨?_, ⟨st, hst1, ?_⟩, fun g' ov hg' => ?_⟩
    · rw [hcol]
      exact ⟨of_decide_eq_true, fun hp => decide_eq_true hp⟩
    · rw [hst2]
      exact ⟨of_decide_eq_true, fun hp => decide_eq_true hp⟩
    · simp [GlyphImage.paint_tint, hg']

/-- Witness for C9: packing the concrete mask image yields a colorable
drawable and record, and a non-colorable drawable paints white. -/
theorem colorable_iff_mask_wit :
    (packedMaskGlyph.colorable = true ↔ maskImage1.content = SwashContent.mask)
    ∧ (∃ st : GlyphState, cacheGetEntry packedMaskAtlas.cache 3 = some (some st) ∧
        (st.colorable = true ↔ maskImage1.content = SwashContent.mask))
    ∧ GlyphImage.paint_tint untintedGlyph (some black) = Color32.white :=
  ⟨(colorable_iff_mask originOps rzMask 3 1 (TextureAtlas.new () 1024 black) maskImage1
      packedMaskGlyph packedMaskAtlas 1 rfl rfl rfl).1,
   (colorable_iff_mask originOps rzMask 3 1 (TextureAtlas.new () 1024 black) maskImage1
      packedMaskGlyph packedMaskAtlas 1 rfl rfl rfl).2.1,
   (colorable_iff_mask originOps rzMask 3 1 (TextureAtlas.new () 1024 black) maskImage1
      packedMaskGlyph packedMaskAtlas 1 rfl rfl rfl).2.2 untintedGlyph (some black) rfl⟩

/-- The writes performed by `grow`'s recopy fold never touch a pixel that
every successfully re-rasterized entry's target region avoids. -/
theorem foldl_grow_step_avoid (rz : Key → Option SwashImage) (dc : Color32) (x y : Nat) :
    ∀ (l : List (Key × Option GlyphState)) (acc : (Nat → Nat → Color32) × Nat),
      (∀ e ∈ l, ∀ st' image, e.2 = some st' → rz e.1 = some image →
        ¬ inRect st'.allocation.rectangle.min.x st'.allocation.rectangle.min.y
            image.placement.width image.placement.height x y) →
      (l.foldl (grow_step rz dc) acc).1 x y = acc.1 x y
  | [], acc, _ => rfl
  | e :: t, acc, h => by
    rw [List.foldl_cons]
    rw [foldl_grow_step_avoid rz dc x y t _
      (fun e' he' => h e' (List.mem_cons_of_mem _ he'))]
    obtain ⟨k1, v1⟩ := e
    cases v1 with
    | none => rfl
    | some st' =>
      dsimp only [grow_step]
      cases him : rz k1 with
      | none => rfl
      | some image =>
        dsimp only
        show (write_glyph_image image dc _ _ acc.1) x y = acc.1 x y
        unfold write_glyph_image
        rw [if_neg (h (k1, some st') (List.mem_cons_self _ _) st' image rfl him)]

/-- C10: when `grow` re-rasterizes the cached glyphs and the rasterizer
fails for a cached packed glyph `(k, st)`, that glyph is silently
skipped: the cache is unchanged (the entry stays live), the packer is
only grown (no deallocation), and — provided every other successfully
re-rasterized entry writes a region disjoint from `st`'s — every pixel of
`st`'s region in the rebuilt surface is transparent. -/
theorem grow_skips_failed_raster {P : Type} (ops : PackerOps P)
    (rz : Key → Option SwashImage) (s : TextureAtlas P) (k : Key) (st : GlyphState)
    (hmem : (k, some st) ∈ s.cache)
    (hfail : rz k = none)
    (hlt : s.atlas_side < s.max_texture_side)
    (hdisj : ∀ e ∈ s.cache, ∀ st' image, e.2 = some st' → rz e.1 = some image →
      ∀ x y, inRect st.allocation.rectangle.min.x st.allocation.rectangle.min.y
          st.placement.width st.placement.height x y →
        ¬ inRect st'.allocation.rectangle.min.x st'.allocation.rectangle.min.y
            image.placement.width image.placement.height x y) :
    ∃ (s' : TextureAtlas P) (n : Nat), TextureAtlas.grow ops rz s = some (s', n)
      ∧ s'.cache = s.cache ∧ (k, some st) ∈ s'.cache
      ∧ s'.packer = ops.grow s.packer (min (s.atlas_side * 2) s.max_texture_side)
      ∧ ∀ x y, inRect st.allocation.rectangle.min.x st.allocation.rectangle.min.y
          st.placement.width st.placement.height x y →
        s'.texture x y = Color32.transparent := by
  unfold TextureAtlas.grow
  rw [if_pos hlt]
  dsimp only
  refine ⟨_, _, rfl, rfl, hmem, rfl, fun x y hxy => ?_⟩
  dsimp only
  rw [foldl_grow_step_avoid rz s.default_color x y s.cache.reverse _
    (fun e he st' image h1 h2 =>
      hdisj e (List.mem_reverse.mp he) st' image h1 h2 x y hxy)]

/-- Witness for C10: the single cached 2×2 glyph at (3,4) whose
re-rasterization fails stays cached while its region is transparent. -/
theorem grow_skips_failed_raster_wit :
    ∃ (s' : TextureAtlas Unit) (n : Nat),
      TextureAtlas.grow fullOps rzFail sOneGlyph = some (s', n)
      ∧ s'.cache = sOneGlyph.cache ∧ ((0 : Key), some sampleState) ∈ s'.cache
      ∧ s'.packer = fullOps.grow sOneGlyph.packer
          (min (sOneGlyph.atlas_side * 2) sOneGlyph.max_texture_side)
      ∧ ∀ x y, inRect sampleState.allocation.rectangle.min.x
          sampleState.allocation.rectangle.min.y sampleState.placement.width
          sampleState.placement.height x y →
        s'.texture x y = Color32.transparent :=
  grow_skips_failed_raster fullOps rzFail sOneGlyph 0 sampleState (by decide) rfl
    (by decide)
    (by intro e he st' image h1 h2 x y hxy; exact absurd h2 (by simp [rzFail]))

end EguiCosmicGlue
